import Mathlib

/-!
# Verification of the command-intent classifier and safe command-execution pipeline

Shallow embedding of the core of `grok_agent_simple_v2.py`: the intent
classifier (`detect_command_intent`), the argument extractor, the safe
executor (`execute_command` with `retry_with_backoff` and `add_to_history`),
the output normalizer (`process_command_output`) and the routing method
(`chat`).

Python strings are modelled as `List Char`; the Python string operations used
by the source (`lower`, `strip`, `split`, `split(sep)`, `replace`,
`startswith`, `in`, `splitlines`) are reimplemented below with the exact
semantics of CPython on the ASCII inputs that occur in this development.
-/

namespace GrokAgent

/-- Python `str.lower` (ASCII). -/
def pyLower (s : List Char) : List Char := s.map Char.toLower

/-- The characters Python's `str.strip()` / `str.split()` treat as whitespace
(ASCII subset: space, tab, newline, carriage return, vertical tab, form feed). -/
def isPySpace (c : Char) : Bool :=
  c = ' ' || c = '\t' || c = '\n' || c = '\r' || c = '\x0b' || c = '\x0c'

/-- Python `str.strip()`: remove leading and trailing whitespace. -/
def pyStrip (s : List Char) : List Char :=
  ((s.dropWhile isPySpace).reverse.dropWhile isPySpace).reverse

/-- Python `str.strip(chars)`: remove leading and trailing characters drawn
from `chars` (used by the source as `.strip('[]')`). -/
def pyStripChars (chars : List Char) (s : List Char) : List Char :=
  ((s.dropWhile (· ∈ chars)).reverse.dropWhile (· ∈ chars)).reverse

/-- Prepend a character to the first piece of a split result. -/
def consHead (c : Char) : List (List Char) → List (List Char)
  | [] => [[c]]
  | h :: t => (c :: h) :: t

/-- Python `pat in s` (substring containment). -/
def listContains (pat : List Char) : List Char → Bool
  | [] => pat.isEmpty
  | c :: t => pat.isPrefixOf (c :: t) || listContains pat t

/-- Split at every character satisfying `p` (keeping empty pieces). -/
def splitCharP (p : Char → Bool) : List Char → List (List Char)
  | [] => [[]]
  | c :: t => if p c then [] :: splitCharP p t else consHead c (splitCharP p t)

/-- Python `str.split()` with no separator: split on whitespace runs,
discarding empty pieces. -/
def pySplitWs (s : List Char) : List (List Char) :=
  (splitCharP isPySpace s).filter (fun w => !w.isEmpty)

/-- Worker for `pySplitOn`; `fuel` bounds the recursion and always suffices
for the top-level call. Splits at non-overlapping occurrences of `sep`,
scanning left to right, exactly as Python `str.split(sep)` for a
non-empty `sep`. -/
def splitOnFuel (sep : List Char) : Nat → List Char → List (List Char)
  | _, [] => [[]]
  | 0, s => [s]
  | fuel + 1, c :: t =>
    if sep.isPrefixOf (c :: t) then
      [] :: splitOnFuel sep fuel ((c :: t).drop sep.length)
    else
      consHead c (splitOnFuel sep fuel t)

/-- Python `str.split(sep)` for a non-empty separator. -/
def pySplitOn (sep s : List Char) : List (List Char) :=
  splitOnFuel sep (s.length + 1) s

/-- Python `lst[-1]` on the (never empty) result of a split. -/
def lastD (l : List (List Char)) (d : List Char) : List Char :=
  l.getLastD d

/-- Python `s.replace(old, new)` for non-empty `old`: equals
`new.join(s.split(old))`. -/
def pyReplace (old new s : List Char) : List Char :=
  List.intercalate new (pySplitOn old s)

/-- Python `str.startswith`. -/
def pyStartsWith (pre s : List Char) : Bool := pre.isPrefixOf s

/-- Distinct elements of a word list, first occurrences kept
(models `set(...)`: only membership and cardinality are used). -/
def dedupWordsAux : List (List Char) → List (List Char) → List (List Char)
  | _, [] => []
  | seen, w :: t =>
    if w ∈ seen then dedupWordsAux seen t else w :: dedupWordsAux (w :: seen) t

/-- The set of words of a Python string, as a duplicate-free list. -/
def pyWordSet (s : List Char) : List (List Char) :=
  dedupWordsAux [] (pySplitWs s)

/-- Python `str.splitlines` worker (on a non-empty string): splits at
`\r\n`, `\r` or `\n`, with no trailing empty line for a trailing break. -/
def splitLinesGo : List Char → List (List Char)
  | [] => [[]]
  | '\r' :: '\n' :: t => if t.isEmpty then [[]] else [] :: splitLinesGo t
  | '\r' :: t => if t.isEmpty then [[]] else [] :: splitLinesGo t
  | '\n' :: t => if t.isEmpty then [[]] else [] :: splitLinesGo t
  | c :: t => consHead c (splitLinesGo t)

/-- Python `str.splitlines` (for the line breaks `\r\n`, `\r`, `\n`). -/
def pySplitLines (s : List Char) : List (List Char) :=
  if s.isEmpty then [] else splitLinesGo s

/-- Python `sep.join(parts)`. -/
def joinSep (sep : List Char) : List (List Char) → List Char
  | [] => []
  | [x] => x
  | x :: y :: t => x ++ sep ++ joinSep sep (y :: t)

/-- Stable insertion into a sorted list of strings (string order is
code-point lexicographic, as in Python `sorted`). -/
def insertStr (x : String) : List String → List String
  | [] => [x]
  | y :: t => if x ≤ y then x :: y :: t else y :: insertStr x t

/-- Python `sorted` on a list of strings. -/
def sortStrs (l : List String) : List String := l.foldr insertStr []

/-! ## Command registry (module-level constants of `grok_agent_simple_v2.py`)

`ALLOWED_COMMANDS` is a Python `set` literal; its iteration order is
unspecified by the language.  It is modelled here as a list in the literal's
written order; the theorems below only rely on an enumeration order where
the result is order-independent (membership tests, or inputs matched by a
single keyword). -/

def ALLOWED_COMMANDS : List String :=
  ["ipconfig", "ping", "tracert", "netstat", "dir", "type", "echo",
   "systeminfo", "ver", "hostname", "whoami", "date", "time"]

/-- `self.command_patterns`, in dict insertion order (Python 3.7+ dicts
iterate in insertion order). -/
def command_patterns : List (String × List String) :=
  [("ipconfig",
    ["what is my ip", "show my ip", "display ip", "network config",
     "show network", "ip address", "network address", "my network",
     "network settings", "connection info", "internet settings",
     "wifi info", "ethernet info", "network adapter"]),
   ("systeminfo",
    ["system info", "computer info", "pc info", "hardware info",
     "show system", "about my computer", "system details",
     "computer specs", "hardware specs", "system configuration",
     "computer details", "pc details", "system hardware"]),
   ("whoami",
    ["who am i", "current user", "my username", "logged in as",
     "show user", "user name", "my account", "current account",
     "user account", "login info", "account name"]),
   ("hostname",
    ["computer name", "machine name", "host name", "pc name",
     "what is my computer called", "system name", "computer id",
     "machine id", "pc identifier", "computer identifier"]),
   ("dir",
    ["show files", "list files", "show directory", "list directory",
     "what files are here", "show folder contents", "folder contents",
     "directory contents", "list folder", "show folder", "files here",
     "what is in this folder", "folder files", "directory files"]),
   ("ping",
    ["test connection", "check connection", "ping test",
     "can i reach", "network test", "test network", "check network",
     "test internet", "check internet", "test website",
     "check website", "test server", "check server",
     "test if online", "check if online", "test connectivity"]),
   ("tracert",
    ["trace route", "show route", "network path",
     "how does traffic get to", "trace path", "show path",
     "network trace", "route trace", "trace network",
     "show network path", "trace internet path",
     "how data travels", "data path", "connection path"]),
   ("netstat",
    ["network status", "show connections", "active connections",
     "network statistics", "port usage", "network ports",
     "active ports", "connection status", "network activity",
     "port status", "connection list", "network connections",
     "active network", "port connections"]),
   ("ver",
    ["windows version", "os version", "system version",
     "what version", "which windows", "windows info",
     "os info", "system info", "version info",
     "windows details", "os details", "system details"]),
   ("date",
    ["what date", "current date", "today date",
     "show date", "what day is it", "today",
     "current day", "what day", "date today",
     "show today", "what is today", "today's date"]),
   ("time",
    ["what time", "current time", "show time",
     "tell me the time", "what is the time",
     "current hour", "what hour", "time now",
     "show current time", "what is now", "current moment"]),
   ("help",
    ["how do i use", "what does", "explain command", "command help",
     "usage of", "syntax for", "examples of", "how to use",
     "help with", "explain how", "show how", "guide me",
     "tell me about", "what is", "how does", "can you explain"]),
   ("search",
    ["search for command", "find command", "lookup command",
     "what command", "is there a command", "command to",
     "how to", "what can i use", "which command",
     "find a way to", "how can i", "what should i use",
     "looking for command", "need command", "want to"]),
   ("web_search",
    ["search for", "look up", "find information about", "what is",
     "tell me about", "search online", "look online", "find online",
     "web search", "internet search", "search the web", "search internet",
     "find out about", "learn about", "get information about",
     "search duckduckgo", "duckduckgo search", "search duck duck go",
     "what do you know about", "tell me more about", "search for information",
     "find details about", "get details about", "search details about"])]

/-- Pattern list of one pseudo-command key of `command_patterns`. -/
def patternsOf (key : String) : List String :=
  ((command_patterns.find? (fun kv => kv.1 = key)).map Prod.snd).getD []

/-! ## Intent classifier: `GrokAgent.detect_command_intent` -/

/-- Result triple of `detect_command_intent`:
`(intent, command, args)`, each `Optional[str]`. -/
structure DetectResult where
  intent : Option String
  cmd : Option String
  args : Option String
deriving DecidableEq, Repr

/-- The classifier's input normalization: `user_input.lower().strip()`. -/
def normInput (s : String) : List Char := pyStrip (pyLower s.data)

/-- First pattern of `pats` contained in `u` (the `for ... if pattern in
user_input: ... break` idiom). -/
def firstContained (pats : List String) (u : List Char) : Option String :=
  pats.find? (fun p => listContains p.data u)

/-- Web-search stage (first check of `detect_command_intent`). -/
def webSearchStage (u : List Char) : Option DetectResult :=
  if (patternsOf "web_search").any (fun p => listContains p.data u) then
    let q :=
      match firstContained (patternsOf "web_search") u with
      | some p => pyStrip (lastD (pySplitOn p.data u) u)
      | none => u
    some ⟨some "web_search", none, some (String.mk q)⟩
  else
    none

/-- Help stage.  Note the source returns only when some allowed command
keyword is a substring of the input; otherwise the `if` body ends without a
`return` and control falls through to the next check. -/
def helpStage (u : List Char) : Option DetectResult :=
  if (patternsOf "help").any (fun p => listContains p.data u) then
    match ALLOWED_COMMANDS.find? (fun c => listContains c.data u) with
    | some c => some ⟨some "help", some c, none⟩
    | none => none
  else
    none

/-- Search stage: strips every search pattern out of the query
(`search_query.replace(pattern, '').strip()` in a loop over all patterns). -/
def searchStage (u : List Char) : Option DetectResult :=
  if (patternsOf "search").any (fun p => listContains p.data u) then
    let q := (patternsOf "search").foldl
      (fun acc p => pyStrip (pyReplace p.data [] acc)) u
    some ⟨some "search", none, some (String.mk q)⟩
  else
    none

/-- `parts = user_input.split(); for i, part in enumerate(parts): if part in
['test', 'check'] and i + 1 < len(parts): args = parts[i+1].strip(); break`. -/
def findAfterToken : List (List Char) → Option (List Char)
  | [] => none
  | [_] => none
  | w :: x :: rest =>
    if w = "test".data || w = "check".data then some (pyStrip x)
    else findAfterToken (x :: rest)

/-- `args = user_input.split(phrase)[-1].strip()` for the first phrase of
`phrases` contained in `u`; `none` when no phrase matches. -/
def firstPhraseTail (phrases : List String) (u : List Char) : Option (List Char) :=
  match phrases.find? (fun p => listContains p.data u) with
  | some p => some (pyStrip (lastD (pySplitOn p.data u) u))
  | none => none

/-- Per-command argument extraction (identical in the exact-match and fuzzy
branches of the source). -/
def extractArgs (cmd : String) (u : List Char) : Option (List Char) :=
  if cmd = "ping" then
    if listContains "can i reach".data u then
      some (pyStrip (lastD (pySplitOn "can i reach".data u) u))
    else if listContains "test".data u || listContains "check".data u then
      findAfterToken (pySplitWs u)
    else none
  else if cmd = "tracert" then
    firstPhraseTail ["how does traffic get to", "trace path to", "show path to"] u
  else if cmd = "dir" then
    firstPhraseTail ["show files in", "list files in", "what is in"] u
  else none

/-- The fuzzy word-overlap test:
`len(pattern_words.intersection(words)) / len(pattern_words) > 0.5`.
For the word-set sizes occurring here the float comparison is exact and
equivalent to `2 * |intersection| > |pattern_words|`. -/
def fuzzyMatch (p : String) (u : List Char) : Bool :=
  let pw := pyWordSet p.data
  let iw := pySplitWs u
  2 * (pw.countP (fun w => decide (w ∈ iw))) > pw.length

/-- Per-command stage: for each non-pseudo command (in dict order), first an
exact substring match over its patterns, then the fuzzy fallback; the first
command matching either wins. -/
def perCommandStage (u : List Char) : Option DetectResult :=
  command_patterns.findSome? (fun kv =>
    if kv.1 = "help" || kv.1 = "search" || kv.1 = "web_search" then none
    else if kv.2.any (fun p => listContains p.data u) then
      some ⟨some "execute", some kv.1, (extractArgs kv.1 u).map String.mk⟩
    else if kv.2.any (fun p => fuzzyMatch p u) then
      some ⟨some "execute", some kv.1, (extractArgs kv.1 u).map String.mk⟩
    else none)

/-- Direct-invocation stage: the first allowed command keyword that is a
prefix of the input; `args = user_input[len(cmd):].strip()`, empty → `None`. -/
def directStage (u : List Char) : Option DetectResult :=
  ALLOWED_COMMANDS.findSome? (fun cmd =>
    if pyStartsWith cmd.data u then
      let args := pyStrip (u.drop cmd.data.length)
      some ⟨some "execute", some cmd,
            if args.isEmpty then none else some (String.mk args)⟩
    else none)

/-- `GrokAgent.detect_command_intent`: the five checks in source order,
falling back to `(None, None, None)`. -/
def detect_command_intent (s : String) : DetectResult :=
  let u := normInput s
  (((((webSearchStage u).orElse
      (fun _ => helpStage u)).orElse
      (fun _ => searchStage u)).orElse
      (fun _ => perCommandStage u)).orElse
      (fun _ => directStage u)).getD ⟨none, none, none⟩

/-! ## Retry wrapper: `GrokAgent.retry_with_backoff`

The wrapped callable is modelled as an oracle `f : Nat → Except ε α` giving
the outcome of attempt `n` (0-based): `Except.ok` when the call returns,
`Except.error` when it raises.  The wrapper records how many times the
callable was invoked and the sleeps performed between attempts. -/

structure RetryResult (ε α : Type) where
  outcome : Except ε α
  calls : Nat
  delays : List Nat
deriving Repr

/-- One pass of the `for attempt in range(max_attempts)` loop, structurally
recursive in the remaining number of attempts.  On the last attempt
(`attempt == max_attempts - 1`) an exception is re-raised; otherwise the
wrapper sleeps `base_delay * 2 ** attempt` and retries. -/
def retryGo [Inhabited ε] (f : Nat → Except ε α) (base : Nat) (attempt : Nat) :
    Nat → RetryResult ε α
  | 0 => ⟨Except.error default, 0, []⟩
  | remaining + 1 =>
    match f attempt with
    | Except.ok a => ⟨Except.ok a, 1, []⟩
    | Except.error e =>
      if remaining = 0 then ⟨Except.error e, 1, []⟩
      else
        let d := base * 2 ^ attempt
        let r := retryGo f base (attempt + 1) remaining
        ⟨r.outcome, r.calls + 1, d :: r.delays⟩

/-- `GrokAgent.retry_with_backoff` (the `remaining = 0` base case of
`retryGo`, corresponding to an empty `range(max_attempts)`, is unreachable
whenever `maxAttempts ≥ 1`). -/
def retry_with_backoff [Inhabited ε] (maxAttempts base : Nat)
    (f : Nat → Except ε α) : RetryResult ε α :=
  retryGo f base 0 maxAttempts

/-! ## Command history: `GrokAgent.add_to_history` -/

/-- `self.command_history.append(command); if len > self.max_history: pop(0)`.
Polymorphic in the entry type (the source stores raw command strings). -/
def add_to_history (history : List α) (maxHistory : Nat) (command : α) : List α :=
  let h := history ++ [command]
  if h.length > maxHistory then h.drop 1 else h

/-- `self.max_history = 100` (the default capacity set in `__init__`). -/
def max_history : Nat := 100

/-! ## Safe executor: `GrokAgent.execute_command` -/

/-- Outcome of one `subprocess.run` invocation:
a completed process (any exit code), a `subprocess.TimeoutExpired`, or
some other exception. -/
inductive SubprocessOutcome where
  | completed (stdout stderr : String) (returncode : Int)
  | timeoutExpired
  | raises (msg : String)
deriving Repr, DecidableEq

/-- Exceptions that can propagate out of the retried invocation. -/
inductive SubError where
  | timeout
  | other (msg : String)
deriving Repr, DecidableEq, Inhabited

/-- A completed `subprocess.run` result. -/
structure Completed where
  stdout : String
  stderr : String
  returncode : Int
deriving Repr, DecidableEq

/-- View of the subprocess oracle as an `Except`-valued attempt function. -/
def oracleExcept (oracle : Nat → SubprocessOutcome) (n : Nat) :
    Except SubError Completed :=
  match oracle n with
  | SubprocessOutcome.completed out err code => Except.ok ⟨out, err, code⟩
  | SubprocessOutcome.timeoutExpired => Except.error SubError.timeout
  | SubprocessOutcome.raises m => Except.error (SubError.other m)

/-- `self.config` fields used by the executor. -/
structure Config where
  retry_attempts : Nat
  retry_delay : Nat
  api_timeout : Nat
deriving Repr, DecidableEq

/-- The defaults of `load_config`. -/
def defaultConfig : Config := ⟨3, 1, 30⟩

/-- `admin_required_commands = {'netstat', 'systeminfo', 'ipconfig'}`. -/
def admin_required_commands : List String := ["netstat", "systeminfo", "ipconfig"]

/-- The rejection message for a keyword outside the allow-list, with
`', '.join(sorted(ALLOWED_COMMANDS))`. -/
def notAllowedMsg (baseCmd : List Char) : String :=
  "Sorry, the command '" ++ String.mk baseCmd ++
  "' is not allowed for security reasons. Allowed commands: " ++
  String.mk (joinSep ", ".data ((sortStrs ALLOWED_COMMANDS).map String.data))

/-- Observable outcome of one `execute_command` call.
`result` is the Python return value (`none` for the `config`/`history`
meta-command branches, which return `None`); `historyAfterAppend` is the
history right after the unconditional `add_to_history` at the top of the
method; `history` is the final history (they differ only for
`clear history`); `subprocessCalls` and `delays` record the retried
invocation. -/
structure ExecOutcome where
  result : Option String
  historyAfterAppend : List String
  history : List String
  subprocessCalls : Nat
  delays : List Nat
deriving Repr, DecidableEq

/-- The part of one `execute_command` call that does not touch the history:
the returned value, whether the `clear history` branch ran, and the
subprocess-invocation record. -/
structure CoreOutcome where
  result : Option String
  clears : Bool
  calls : Nat
  delays : List Nat
deriving Repr, DecidableEq

/-- The branch structure of `GrokAgent.execute_command` after the initial
history append.  In the `config set` branch the source reads `parts[3]` of a
3-element list, so that branch raises `IndexError`, caught by the method's
outer handler. -/
def executeCore (cfg : Config) (isAdmin adminGrant : Bool)
    (oracle : Nat → SubprocessOutcome) (command : String) : CoreOutcome :=
  let lower := pyLower command.data
  if pyStartsWith "config".data lower then
    let parts := pySplitWs command.data
    if parts.length = 3 ∧ parts.get? 1 = some "set".data then
      ⟨some "Error executing command: list index out of range", false, 0, []⟩
    else ⟨none, false, 0, []⟩
  else if lower = "history".data then ⟨none, false, 0, []⟩
  else if lower = "clear history".data then ⟨none, true, 0, []⟩
  else
    match pySplitWs command.data with
    | [] => ⟨some "Please provide a command to execute", false, 0, []⟩
    | first :: _rest =>
      let base_cmd := pyLower first
      if ¬ (ALLOWED_COMMANDS.any (fun c => c.data = base_cmd)) then
        ⟨some (notAllowedMsg base_cmd), false, 0, []⟩
      else if admin_required_commands.any (fun c => c.data = base_cmd)
          ∧ ¬ isAdmin ∧ ¬ adminGrant then
        ⟨some ("Command '" ++ String.mk base_cmd ++
               "' requires admin privileges. Please run the agent as administrator."),
         false, 0, []⟩
      else
        let r := retry_with_backoff cfg.retry_attempts cfg.retry_delay
          (oracleExcept oracle)
        match r.outcome with
        | Except.ok c =>
          ⟨some (if c.stdout ≠ "" then c.stdout else c.stderr),
           false, r.calls, r.delays⟩
        | Except.error SubError.timeout =>
          ⟨some ("Command timed out after " ++ toString cfg.api_timeout ++ " seconds"),
           false, r.calls, r.delays⟩
        | Except.error (SubError.other m) =>
          ⟨some ("Error executing command: " ++ m), false, r.calls, r.delays⟩

/-- `GrokAgent.execute_command`.
Out-of-core collaborators are parameters: `isAdmin` is `self.is_admin`,
`adminGrant` the outcome of `request_admin_privileges()` (on non-Windows it
is always `False`; a `True` models continuing with elevation), and `oracle`
the behaviour of `subprocess.run` per attempt.  Console printing and session
persistence are side effects outside the modelled state.  The method first
appends the raw command string to the history unconditionally
(`self.add_to_history(command)`), then dispatches; only the
`clear history` branch replaces the history afterwards. -/
def execute_command (cfg : Config) (isAdmin adminGrant : Bool)
    (oracle : Nat → SubprocessOutcome) (history : List String)
    (command : String) : ExecOutcome :=
  let h := add_to_history history max_history command
  let core := executeCore cfg isAdmin adminGrant oracle command
  ⟨core.result, h, if core.clears then [] else h, core.calls, core.delays⟩

/-! ## Output normalizer: `GrokAgent.process_command_output`

The method body is one `try` block with per-command branches; any exception
(`IndexError` from out-of-range list indexing on malformed output) is caught
by `except Exception` which logs and returns the raw output.  The body is
modelled as an `Except String String` computation (`error` = a raised
exception), and `process_command_output` applies the catch-all. -/

/-- Optional network fields collected per adapter in the `ipconfig` branch. -/
structure AdapterInfo where
  ip : Option (List Char)
  mac : Option (List Char)
deriving Repr, DecidableEq

/-- `network_info[k] = {}`: Python dict assignment — an existing key keeps
its position and its value is replaced; a new key is appended. -/
def setAdapter (k : List Char) : List (List Char × AdapterInfo) →
    List (List Char × AdapterInfo)
  | [] => [(k, ⟨none, none⟩)]
  | (k', v) :: t => if k' = k then (k, ⟨none, none⟩) :: t else (k', v) :: setAdapter k t

/-- `network_info[k]['ip'] = v` (no-op on an absent key, which the guard
`current_adapter and ...` makes unreachable). -/
def setAdapterIp (k v : List Char) : List (List Char × AdapterInfo) →
    List (List Char × AdapterInfo)
  | [] => []
  | (k', i) :: t =>
    if k' = k then (k', ⟨some v, i.mac⟩) :: t else (k', i) :: setAdapterIp k v t

/-- `network_info[k]['mac'] = v`. -/
def setAdapterMac (k v : List Char) : List (List Char × AdapterInfo) →
    List (List Char × AdapterInfo)
  | [] => []
  | (k', i) :: t =>
    if k' = k then (k', ⟨i.ip, some v⟩) :: t else (k', i) :: setAdapterMac k v t

/-- Truthiness of `current_adapter` (`None` and the empty string are falsy). -/
def adapterTruthy : Option (List Char) → Bool
  | some a => !a.isEmpty
  | none => false

/-- Python `line.split(':')[i]`: `error` models `IndexError`. -/
def colonPiece (line : List Char) (i : Nat) : Except String (List Char) :=
  match (pySplitOn ":".data line).get? i with
  | some piece => Except.ok piece
  | none => Except.error "list index out of range"

/-- The adapter-collection loop of the `ipconfig` branch. -/
def ipconfigGo (cur : Option (List Char)) (m : List (List Char × AdapterInfo)) :
    List (List Char) → Except String (List (List Char × AdapterInfo))
  | [] => Except.ok m
  | line :: rest =>
    if listContains "Ethernet adapter".data line
        || listContains "Wireless".data line then
      match colonPiece line 0 with
      | Except.ok piece =>
        let a := pyStrip piece
        ipconfigGo (some a) (setAdapter a m) rest
      | Except.error e => Except.error e
    else if adapterTruthy cur && listContains "IPv4 Address".data line then
      match colonPiece line 1 with
      | Except.ok piece =>
        ipconfigGo cur (setAdapterIp (cur.getD []) (pyStrip piece) m) rest
      | Except.error e => Except.error e
    else if adapterTruthy cur && listContains "Physical Address".data line then
      match colonPiece line 1 with
      | Except.ok piece =>
        ipconfigGo cur (setAdapterMac (cur.getD []) (pyStrip piece) m) rest
      | Except.error e => Except.error e
    else
      ipconfigGo cur m rest

/-- Response formatting of the `ipconfig` branch. -/
def fmtAdapters (m : List (List Char × AdapterInfo)) : List Char :=
  m.foldl (fun acc kv =>
    acc ++ "\n".data ++ kv.1 ++ ":\n".data ++
    (match kv.2.ip with
     | some ip => "  IP Address: ".data ++ ip ++ "\n".data
     | none => []) ++
    (match kv.2.mac with
     | some mac => "  MAC Address: ".data ++ mac ++ "\n".data
     | none => []))
    "Your network information:\n".data

/-- Python `line.split(':', 1)` when `':' in line`: the pieces before and
after the first colon. -/
def pySplitOnce (sep s : List Char) : List Char × List Char :=
  match pySplitOn sep s with
  | [] => (s, [])
  | [x] => (x, [])
  | x :: y :: t => (x, joinSep sep (y :: t))

/-- `system_info[k] = v` with Python dict replace-or-append semantics. -/
def setField (k v : List Char) : List (List Char × List Char) →
    List (List Char × List Char)
  | [] => [(k, v)]
  | (k', v') :: t => if k' = k then (k, v) :: t else (k', v') :: setField k v t

/-- Dict lookup. -/
def lookupField (k : List Char) : List (List Char × List Char) → Option (List Char)
  | [] => none
  | (k', v) :: t => if k' = k then some v else lookupField k t

/-- `important_fields` of the `systeminfo` branch. -/
def important_fields : List String :=
  ["OS Name", "OS Version", "System Type", "Total Physical Memory",
   "Available Physical Memory"]

/-- The body of `process_command_output` (before the catch-all), over the
line list of the raw output.  `output` is the raw output string, needed by
the `ping`/`tracert` short-output fallthrough and the default branch. -/
def processBody (command : String) (output : List Char) : Except String (List Char) :=
  let lines := pySplitLines output
  if command = "ipconfig" then
    match ipconfigGo none [] lines with
    | Except.ok m => Except.ok (fmtAdapters m)
    | Except.error e => Except.error e
  else if command = "systeminfo" then
    let info := lines.foldl (fun acc line =>
      if listContains ":".data line then
        let kv := pySplitOnce ":".data line
        setField (pyStrip kv.1) (pyStrip kv.2) acc
      else acc) []
    Except.ok (important_fields.foldl (fun acc f =>
      match lookupField f.data info with
      | some v => acc ++ "\n".data ++ f.data ++ ": ".data ++ v
      | none => acc) "Your system information:\n".data)
  else if command = "netstat" then
    let conns := lines.foldl (fun acc line =>
      if listContains "TCP".data line || listContains "UDP".data line then
        match pySplitWs line with
        | p0 :: p1 :: p2 :: p3 :: _ => acc ++ [(p0, p1, p2, p3)]
        | _ => acc
      else acc) []
    Except.ok (conns.foldl (fun acc c =>
      acc ++ "\n".data ++ c.1 ++ " ".data ++ c.2.1 ++ " -> ".data ++
      c.2.2.1 ++ " (".data ++ c.2.2.2 ++ ")".data)
      "Active network connections:\n".data)
  else if command = "ping" then
    if lines.length ≥ 2 then
      match (pySplitWs (lines.headD [])).getLast? with
      | some w =>
        let target := pyStripChars "[]".data w
        let stats := lines.drop (lines.length - 2)
        Except.ok ("Ping results for ".data ++ target ++ ":\n".data ++
          joinSep "\n".data stats)
      | none => Except.error "list index out of range"
    else Except.ok output
  else if command = "tracert" then
    if lines.length ≥ 2 then
      match (pySplitWs (lines.headD [])).getLast? with
      | some w =>
        let target := pyStripChars "[]".data w
        let hops := (lines.drop 1).filter (fun l => !(pyStrip l).isEmpty)
        Except.ok (hops.foldl (fun acc hop => acc ++ "\n".data ++ hop)
          ("Route to ".data ++ target ++ ":\n".data))
      | none => Except.error "list index out of range"
    else Except.ok output
  else if command = "dir" then
    let nonblank := lines.filter (fun l => !(pyStrip l).isEmpty)
    let dirs := nonblank.filter (fun l => listContains "<DIR>".data l)
    let files := nonblank.filter (fun l => !listContains "<DIR>".data l)
    Except.ok ("Directory contents:\n".data ++
      (if !dirs.isEmpty then "\nDirectories:\n".data ++ joinSep "\n".data dirs
       else []) ++
      (if !files.isEmpty then "\n\nFiles:\n".data ++ joinSep "\n".data files
       else []))
  else if command = "whoami" then
    Except.ok ("You are logged in as ".data ++ pyStrip output)
  else if command = "hostname" then
    Except.ok ("Your computer's name is ".data ++ pyStrip output)
  else if command = "ver" then
    Except.ok ("You are running ".data ++ pyStrip output)
  else if command = "date" then
    Except.ok ("Current date: ".data ++ pyStrip output)
  else if command = "time" then
    Except.ok ("Current time: ".data ++ pyStrip output)
  else
    Except.ok ("Command output:\n".data ++ output)

/-- `GrokAgent.process_command_output`: the body with its catch-all, which
degrades to the raw output on any exception. -/
def process_command_output (command output : String) : String :=
  match processBody command output.data with
  | Except.ok r => String.mk r
  | Except.error _ => output

/-! ## Routing: `GrokAgent.chat`

`chat` classifies the input and dispatches.  Its `execute` branch reads the
name `command` (`output = self.execute_command(command)`); Python resolves a
name against the function's local scope and then the module's global scope.
The locals of `chat` bound before that line and the module's top-level names
are listed below; `command` is in neither, so evaluating the argument raises
`NameError: name 'command' is not defined` before `execute_command` is ever
entered, and the method's outer `except Exception` prints
`Error processing input: ...`. -/

/-- The local names of `GrokAgent.chat` that are bound before the
`self.execute_command(command)` call (the parameters and the tuple unpacked
from `detect_command_intent`). -/
def chatLocalNames : List String := ["self", "user_input", "intent", "cmd", "args"]

/-- The module-level (global) names of `grok_agent_simple_v2.py`. -/
def moduleGlobalNames : List String :=
  ["os", "sys", "subprocess", "re", "Optional", "List", "Dict", "Tuple",
   "logging", "json", "requests", "BeautifulSoup", "Console", "Panel",
   "Table", "tiktoken", "load_dotenv", "ctypes", "shell", "time", "OpenAI",
   "logger", "console", "ALLOWED_COMMANDS", "WINDOWS_COMMANDS",
   "get_command_path", "load_api_key", "CommandInfo", "GrokAgent"]

/-- Observable outcome of one `chat` call. -/
inductive ChatOutcome where
  | webSearch (query : String)
  | helpCommand (cmd : String)
  | helpGeneral
  | searchCall (query : String)
  | commandRun (cmd : String)
  | chatFallback
  | errorProcessing (msg : String)
deriving Repr, DecidableEq

/-- `GrokAgent.chat`.  `searchCall` carries the exact query string passed to
`web_search` in the `search` branch.  The `commandRun` outcome is produced
only if the name `command` were resolvable, which it is not. -/
def chat (user_input : String) : ChatOutcome :=
  let r := detect_command_intent user_input
  if r.intent = some "web_search" then
    ChatOutcome.webSearch
      (match r.args with
       | some a => if a ≠ "" then a else user_input
       | none => user_input)
  else if r.intent = some "help" then
    match r.cmd with
    | some c => if c ≠ "" then ChatOutcome.helpCommand c else ChatOutcome.helpGeneral
    | none => ChatOutcome.helpGeneral
  else if r.intent = some "search" then
    ChatOutcome.searchCall
      ("windows command line " ++
       (match r.args with
        | some a => if a ≠ "" then a else user_input
        | none => user_input))
  else if r.intent = some "execute" then
    if (match r.cmd with
        | some c => ALLOWED_COMMANDS.contains c
        | none => false) then
      if "command" ∈ chatLocalNames ∨ "command" ∈ moduleGlobalNames then
        ChatOutcome.commandRun (r.cmd.getD "")
      else
        ChatOutcome.errorProcessing
          "Error processing input: name 'command' is not defined"
    else
      ChatOutcome.chatFallback
  else
    ChatOutcome.chatFallback

/-! ## General lemmas -/

/-- A `findSome?` whose function is a guarded `some` is a `find?` followed
by `map`. -/
theorem findSome?_guard_map (p : α → Bool) (g : α → β) :
    ∀ l : List α,
      l.findSome? (fun x => if p x then some (g x) else none) = (l.find? p).map g
  | [] => rfl
  | x :: t => by
    by_cases h : p x <;>
      simp [List.findSome?_cons, List.find?_cons, h, findSome?_guard_map p g t]

/-! ## Claim theorems -/

/-- A fixed `ipconfig` output with one adapter block and an IPv4 line, as a
mocked subprocess would return it. -/
def sampleIpconfigOutput : String :=
  "Ethernet adapter Ethernet:\n   IPv4 Address. . . . . . . . . . . : 192.168.1.42\n"

/-- C1 (counterexample): on the input `"what is my ip"` the classifier does
not return `('execute', 'ipconfig', None)`: the web-search check runs first
and the input contains the web-search trigger phrase `"what is"`, so the
classifier returns `('web_search', None, 'my ip')`. -/
theorem detect_what_is_my_ip_not_execute :
    detect_command_intent "what is my ip" = ⟨some "web_search", none, some "my ip"⟩
    ∧ detect_command_intent "what is my ip" ≠ ⟨some "execute", some "ipconfig", none⟩ := by
  decide

/-- C1 (amended): `classify("what is my ip")` yields kind `web_search` with
argument `"my ip"`, and `chat` therefore routes this input to the web-search
collaborator, never to command execution; the `ipconfig` output formatter,
applied directly to a fixed IPv4 output line, does produce a response
containing the extracted IP address string. -/
theorem what_is_my_ip_pipeline :
    detect_command_intent "what is my ip" = ⟨some "web_search", none, some "my ip"⟩
    ∧ chat "what is my ip" = ChatOutcome.webSearch "my ip"
    ∧ listContains "192.168.1.42".data
        (process_command_output "ipconfig" sampleIpconfigOutput).data = true := by
  decide

/-- C4: whenever any web-search trigger phrase is a substring of the
normalized (lower-cased, stripped) input, the classifier returns kind
`web_search`, with argument the text of the input following the first
matched phrase (the last piece of the Python `split` on that phrase),
stripped of whitespace; in particular `"search for rust ownership"`
classifies as a web search for `"rust ownership"`. -/
theorem web_search_trigger_classification :
    (∀ s : String,
      (patternsOf "web_search").any
          (fun p => listContains p.data (normInput s)) = true →
      ∃ p, firstContained (patternsOf "web_search") (normInput s) = some p ∧
        detect_command_intent s =
          ⟨some "web_search", none,
           some (String.mk (pyStrip
             (lastD (pySplitOn p.data (normInput s)) (normInput s))))⟩)
    ∧ detect_command_intent "search for rust ownership" =
        ⟨some "web_search", none, some "rust ownership"⟩ := by
  constructor
  · intro s h
    have hs : (List.find? (fun p => listContains p.data (normInput s))
        (patternsOf "web_search")).isSome := by
      rw [List.find?_isSome]
      exact List.any_eq_true.mp h
    obtain ⟨p, hp⟩ := Option.isSome_iff_exists.mp hs
    refine ⟨p, hp, ?_⟩
    unfold detect_command_intent webSearchStage firstContained
    simp only [h, if_true, hp, Option.orElse, Option.getD]
  · decide

/-- C4 (witness): the universal part applied at the concrete input
`"look up cats"`, whose first matched web-search phrase is `"look up"`. -/
theorem web_search_trigger_classification_witness :
    ∃ p, firstContained (patternsOf "web_search") (normInput "look up cats") = some p ∧
      detect_command_intent "look up cats" =
        ⟨some "web_search", none,
         some (String.mk (pyStrip
           (lastD (pySplitOn p.data (normInput "look up cats"))
             (normInput "look up cats"))))⟩ :=
  web_search_trigger_classification.1 "look up cats" (by decide)

/-- C2: for every input the classifier maps to `('execute', cmd, args)` with
`cmd` in the allow-list, `chat` never reaches `execute_command`: its execute
branch evaluates the name `command`, which is bound neither in `chat`'s local
scope nor at module level, so the branch raises `NameError`, which the outer
handler renders as an "Error processing input" message. -/
theorem chat_execute_branch_name_error (s c : String) (a : Option String)
    (h : detect_command_intent s = ⟨some "execute", some c, a⟩)
    (hc : ALLOWED_COMMANDS.contains c = true) :
    chat s = ChatOutcome.errorProcessing
      "Error processing input: name 'command' is not defined" := by
  unfold chat
  rw [h]
  simp [hc, chatLocalNames, moduleGlobalNames]
  exact List.mem_of_elem_eq_true hc

/-- C2 (witness): the input `"ping test"` classifies as
`('execute', 'ping', None)` and `chat` on it yields the error message. -/
theorem chat_execute_branch_name_error_witness :
    chat "ping test" = ChatOutcome.errorProcessing
      "Error processing input: name 'command' is not defined" :=
  chat_execute_branch_name_error "ping test" "ping" none (by decide) (by decide)

/-- Any result produced by the search stage carries intent `search`. -/
theorem searchStage_intent (u : List Char) (r : DetectResult)
    (h : searchStage u = some r) : r.intent = some "search" := by
  unfold searchStage at h
  split at h
  · exact congrArg DetectResult.intent (Option.some.inj h).symm
  · exact absurd h (Option.noConfusion)

/-- Any result produced by the per-command stage carries intent `execute`. -/
theorem perCommandStage_intent (u : List Char) (r : DetectResult)
    (h : perCommandStage u = some r) : r.intent = some "execute" := by
  unfold perCommandStage at h
  obtain ⟨kv, -, hkv⟩ := List.exists_of_findSome?_eq_some h
  split at hkv
  · exact absurd hkv (Option.noConfusion)
  · split at hkv
    · exact congrArg DetectResult.intent (Option.some.inj hkv).symm
    · split at hkv
      · exact congrArg DetectResult.intent (Option.some.inj hkv).symm
      · exact absurd hkv (Option.noConfusion)

/-- Any result produced by the direct-invocation stage carries intent
`execute`. -/
theorem directStage_intent (u : List Char) (r : DetectResult)
    (h : directStage u = some r) : r.intent = some "execute" := by
  unfold directStage at h
  obtain ⟨cmd, -, hcmd⟩ := List.exists_of_findSome?_eq_some h
  split at hcmd
  · exact congrArg DetectResult.intent (Option.some.inj hcmd).symm
  · exact absurd hcmd (Option.noConfusion)

/-- C5 (counterexample): the input `"help with cooking"` contains the help
trigger phrase `"help with"` and no registered command keyword, yet the
classifier does not return a general-help intent: the help check has no
else branch, so control falls through and the input ends at
`(None, None, None)`. -/
theorem help_without_keyword_counterexample :
    (patternsOf "help").any
        (fun p => listContains p.data (normInput "help with cooking")) = true
    ∧ ALLOWED_COMMANDS.find?
        (fun c => listContains c.data (normInput "help with cooking")) = none
    ∧ detect_command_intent "help with cooking" = ⟨none, none, none⟩
    ∧ (detect_command_intent "help with cooking").intent ≠ some "help" := by
  decide

/-- C5 (amended): for an input that does not match the web-search check but
contains a help trigger phrase: if some registered command keyword is a
substring of the input, the classifier returns Help with the first such
keyword (in the allow-list's enumeration order); otherwise the help check
produces nothing and the classification falls through to the later checks,
whose results never carry the help intent — there is no general-help
classification. -/
theorem help_check_fallthrough (s : String)
    (hweb : webSearchStage (normInput s) = none)
    (hhelp : (patternsOf "help").any
      (fun p => listContains p.data (normInput s)) = true) :
    (∃ c, ALLOWED_COMMANDS.find?
        (fun c => listContains c.data (normInput s)) = some c
      ∧ detect_command_intent s = ⟨some "help", some c, none⟩)
    ∨ (ALLOWED_COMMANDS.find?
        (fun c => listContains c.data (normInput s)) = none
      ∧ (detect_command_intent s).intent ≠ some "help") := by
  cases hfind : ALLOWED_COMMANDS.find?
      (fun c => listContains c.data (normInput s)) with
  | some c =>
    left
    refine ⟨c, rfl, ?_⟩
    simp only [detect_command_intent, helpStage, hweb, hhelp, if_true, hfind,
      Option.orElse, Option.getD]
  | none =>
    right
    refine ⟨rfl, ?_⟩
    have hstage : helpStage (normInput s) = none := by
      unfold helpStage
      simp only [hhelp, if_true, hfind]
    simp only [detect_command_intent, hweb, hstage, Option.orElse]
    cases hsearch : searchStage (normInput s) with
    | some r =>
      simp only [Option.getD]
      rw [searchStage_intent _ _ hsearch]
      decide
    | none =>
      simp only []
      cases hper : perCommandStage (normInput s) with
      | some r =>
        simp only [Option.getD]
        rw [perCommandStage_intent _ _ hper]
        decide
      | none =>
        simp only []
        cases hdir : directStage (normInput s) with
        | some r =>
          simp only [Option.getD]
          rw [directStage_intent _ _ hdir]
          decide
        | none => simp

/-- C5 (witness): the amended theorem applied at `"how do i use ping"`,
where the keyword `ping` is the only registered command appearing in the
input. -/
theorem help_check_fallthrough_witness :
    (∃ c, ALLOWED_COMMANDS.find?
        (fun c => listContains c.data (normInput "how do i use ping")) = some c
      ∧ detect_command_intent "how do i use ping" = ⟨some "help", some c, none⟩)
    ∨ (ALLOWED_COMMANDS.find?
        (fun c => listContains c.data (normInput "how do i use ping")) = none
      ∧ (detect_command_intent "how do i use ping").intent ≠ some "help") :=
  help_check_fallthrough "how do i use ping" (by decide) (by decide)

/-- C6 (counterexample): the fuzzy threshold is not boundary-inclusive.
The two-word trigger phrase `"trace route"` shares exactly one word with the
input `"route 66"` (overlap ratio exactly 0.5), yet the code's test
`ratio > 0.5` fails, no command matches, and the classifier returns
`(None, None, None)` instead of an Execute intent for `tracert`. -/
theorem fuzzy_half_overlap_counterexample :
    (pyWordSet "trace route".data).length = 2
    ∧ (pyWordSet "trace route".data).countP
        (fun w => decide (w ∈ pySplitWs (normInput "route 66"))) = 1
    ∧ fuzzyMatch "trace route" (normInput "route 66") = false
    ∧ detect_command_intent "route 66" = ⟨none, none, none⟩ := by
  decide

/-- C6 (amended): the fuzzy word-overlap threshold is boundary-exclusive at
50%: a trigger phrase sharing exactly half of its words with the input (in
particular a two-word phrase sharing exactly one word) is never treated as a
match; strictly more than half the phrase's words must occur in the input,
as with `"connection test"`, whose word set covers the full two-word phrase
`"test connection"` and which is classified Execute for `ping`. -/
theorem fuzzy_threshold_strict (p : String) (u : List Char)
    (h2 : 2 * (pyWordSet p.data).countP
        (fun w => decide (w ∈ pySplitWs u)) ≤ (pyWordSet p.data).length) :
    fuzzyMatch p u = false
    ∧ fuzzyMatch "test connection" (normInput "connection test") = true
    ∧ detect_command_intent "connection test" =
        ⟨some "execute", some "ping", none⟩ := by
  refine ⟨?_, by decide, by decide⟩
  unfold fuzzyMatch
  simp only [decide_eq_false_iff_not, gt_iff_lt, not_lt]
  exact h2

/-- C6 (witness): the amended theorem applied to the phrase
`"trace route"` and the input `"route 66"` (one shared word of two). -/
theorem fuzzy_threshold_strict_witness :
    fuzzyMatch "trace route" (normInput "route 66") = false
    ∧ fuzzyMatch "test connection" (normInput "connection test") = true
    ∧ detect_command_intent "connection test" =
        ⟨some "execute", some "ping", none⟩ :=
  fuzzy_threshold_strict "trace route" (normInput "route 66") (by decide)

/-- C7 (counterexample): an input consisting of an allow-listed keyword
followed by trailing text need not classify as Execute of that keyword: the
direct-invocation check runs last, and `"echo what is x"` is intercepted by
the web-search check (trigger `"what is"`), yielding a web-search intent. -/
theorem direct_invocation_counterexample :
    "echo" ∈ ALLOWED_COMMANDS
    ∧ pyStartsWith "echo".data (normInput "echo what is x") = true
    ∧ detect_command_intent "echo what is x" = ⟨some "web_search", none, some "x"⟩
    ∧ (detect_command_intent "echo what is x").intent ≠ some "execute" := by
  decide

/-- C7 (amended): for every input on which the four earlier checks
(web-search, help, search, per-command patterns) all decline, if an
allow-listed keyword is a prefix of the normalized input then the classifier
returns Execute with the first such keyword and argument the trimmed
trailing text (`None` when the trailing text is empty). -/
theorem direct_invocation_classification (s : String)
    (hweb : webSearchStage (normInput s) = none)
    (hhelp : helpStage (normInput s) = none)
    (hsearch : searchStage (normInput s) = none)
    (hper : perCommandStage (normInput s) = none)
    (cmd : String)
    (hfind : ALLOWED_COMMANDS.find?
      (fun c => pyStartsWith c.data (normInput s)) = some cmd) :
    detect_command_intent s =
      ⟨some "execute", some cmd,
       if (pyStrip ((normInput s).drop cmd.data.length)).isEmpty then none
       else some (String.mk (pyStrip ((normInput s).drop cmd.data.length)))⟩ := by
  have hdir : directStage (normInput s) =
      some ⟨some "execute", some cmd,
        if (pyStrip ((normInput s).drop cmd.data.length)).isEmpty then none
        else some (String.mk (pyStrip ((normInput s).drop cmd.data.length)))⟩ := by
    unfold directStage
    dsimp only []
    rw [findSome?_guard_map (fun (c : String) => pyStartsWith c.data (normInput s))
        (fun (cmd : String) =>
          (⟨some "execute", some cmd,
            if (pyStrip ((normInput s).drop cmd.data.length)).isEmpty then none
            else some (String.mk (pyStrip ((normInput s).drop cmd.data.length)))⟩
            : DetectResult))
        ALLOWED_COMMANDS,
      hfind]
    rfl
  simp only [detect_command_intent, hweb, hhelp, hsearch, hper, hdir,
    Option.orElse, Option.getD]

/-- C7 (witness): the amended theorem applied at `"ping 8.8.8.8"`, which no
earlier check claims, giving Execute of `ping` with argument `"8.8.8.8"`. -/
theorem direct_invocation_classification_witness :
    detect_command_intent "ping 8.8.8.8" =
      ⟨some "execute", some "ping", some "8.8.8.8"⟩ := by
  have h := direct_invocation_classification "ping 8.8.8.8"
    (by decide) (by decide) (by decide) (by decide) "ping" (by decide)
  rw [h]
  decide

/-- A subprocess oracle that always completes successfully (used to show a
branch never reaches the invocation: its calls counter stays 0). -/
def okOracle : Nat → SubprocessOutcome :=
  fun _ => SubprocessOutcome.completed "ok" "" 0

/-- C3 (counterexample): the command string `"config"` has first word
`config`, which is not in the allow-list, yet `execute_command` does not
return the NotAllowed rejection: the `config` meta-command branch runs
first and returns `None` (it also never invokes a subprocess). -/
theorem execute_config_no_rejection :
    (pySplitWs "config".data).headD [] = "config".data
    ∧ ALLOWED_COMMANDS.all (fun c => c ≠ "config") = true
    ∧ (execute_command defaultConfig false false okOracle [] "config").result = none
    ∧ (execute_command defaultConfig false false okOracle [] "config").result
        ≠ some (notAllowedMsg "config".data)
    ∧ (execute_command defaultConfig false false okOracle [] "config").subprocessCalls = 0 := by
  decide

/-- C3 (amended): for every command string that is not one of the
`config`/`history` meta-commands, whose first whitespace-separated word
(lower-cased) is not in the allow-list, `execute_command` returns the
NotAllowed rejection naming the permitted alternatives (the sorted
allow-list joined into the message) and never invokes the subprocess hook. -/
theorem execute_not_allowed_rejection (cfg : Config) (isAdmin adminGrant : Bool)
    (oracle : Nat → SubprocessOutcome) (history : List String) (command : String)
    (first : List Char) (rest : List (List Char))
    (hsplit : pySplitWs command.data = first :: rest)
    (hconfig : pyStartsWith "config".data (pyLower command.data) = false)
    (hhist : pyLower command.data ≠ "history".data)
    (hclear : pyLower command.data ≠ "clear history".data)
    (hallow : ALLOWED_COMMANDS.any (fun c => c.data = pyLower first) = false) :
    (execute_command cfg isAdmin adminGrant oracle history command).result
      = some (notAllowedMsg (pyLower first))
    ∧ (execute_command cfg isAdmin adminGrant oracle history command).subprocessCalls = 0
    ∧ (execute_command cfg isAdmin adminGrant oracle history command).delays = [] := by
  have hcore : executeCore cfg isAdmin adminGrant oracle command =
      ⟨some (notAllowedMsg (pyLower first)), false, 0, []⟩ := by
    unfold executeCore
    dsimp only []
    simp [hsplit, hconfig, hhist, hclear, hallow]
  simp [execute_command, hcore]

/-- C3 (witness): the amended theorem applied to the command string
`"rm -rf /"`, whose first word `rm` is outside the allow-list. -/
theorem execute_not_allowed_rejection_witness :
    (execute_command defaultConfig false false okOracle [] "rm -rf /").result
      = some (notAllowedMsg (pyLower "rm".data))
    ∧ (execute_command defaultConfig false false okOracle [] "rm -rf /").subprocessCalls = 0
    ∧ (execute_command defaultConfig false false okOracle [] "rm -rf /").delays = [] := by
  have h := execute_not_allowed_rejection defaultConfig false false okOracle []
    "rm -rf /" "rm".data ["-rf".data, "/".data]
    (by decide) (by decide) (by decide) (by decide) (by decide)
  exact h

/-- The retry loop performs at most `rem` invocations. -/
theorem retryGo_calls_le [Inhabited ε] (f : Nat → Except ε α) (base : Nat) :
    ∀ (rem attempt : Nat), (retryGo f base attempt rem).calls ≤ rem
  | 0, _ => Nat.le_refl 0
  | rem + 1, attempt => by
    unfold retryGo
    cases h : f attempt with
    | ok a => simp
    | error e =>
      by_cases hr : rem = 0
      · simp [hr]
      · simp only [hr, if_false]
        exact Nat.succ_le_succ (retryGo_calls_le f base rem (attempt + 1))

/-- Every recorded inter-attempt delay is `base * 2 ^ attempt` for its
attempt index. -/
theorem retryGo_delays_eq [Inhabited ε] (f : Nat → Except ε α) (base : Nat) :
    ∀ (rem attempt i d : Nat),
      ((retryGo f base attempt rem).delays).get? i = some d →
      d = base * 2 ^ (attempt + i)
  | 0, attempt, i, d => by simp [retryGo]
  | rem + 1, attempt, i, d => by
    unfold retryGo
    cases h : f attempt with
    | ok a => simp
    | error e =>
      by_cases hr : rem = 0
      · simp [hr]
      · simp only [hr, if_false]
        cases i with
        | zero =>
          intro hd
          have h1 : base * 2 ^ attempt = d := Option.some.inj hd
          rw [Nat.add_zero, ← h1]
        | succ j =>
          intro hd
          have h2 := retryGo_delays_eq f base rem (attempt + 1) j d hd
          have heq : attempt + 1 + j = attempt + (j + 1) := by omega
          rw [heq] at h2
          exact h2

/-- A first attempt that returns a completed invocation is never retried. -/
theorem retry_with_backoff_ok_first [Inhabited ε] (f : Nat → Except ε α)
    (base maxA : Nat) (c : α) (hmax : 0 < maxA) (h : f 0 = Except.ok c) :
    retry_with_backoff maxA base f = ⟨Except.ok c, 1, []⟩ := by
  cases maxA with
  | zero => omega
  | succ m =>
    unfold retry_with_backoff retryGo
    rw [h]

/-- A subprocess oracle that raises on the first two attempts and completes
successfully on the third. -/
def flakyOracle : Nat → SubprocessOutcome :=
  fun n => if n < 2 then SubprocessOutcome.raises "resource exhausted"
           else SubprocessOutcome.completed "PONG" "" 0

/-- C8: the retry wrapper used by the executor performs at most
`retry_attempts` invocations; an invocation that completes (with any exit
code, nonzero included) on the first attempt is returned as-is with exactly
one call and no sleeps; every inter-attempt delay is
`base_delay * 2 ^ attempt`; the defaults are 3 attempts with base delay 1;
and on an invocation that raises twice and then succeeds, `execute_command`
returns the successful output with the hook called exactly three times and
the increasing delays 1s then 2s.  A completed invocation with nonzero exit
code is likewise returned as a normal result by `execute_command` after one
single call. -/
theorem retry_backoff_spec :
    (∀ (oracle : Nat → SubprocessOutcome) (maxA base : Nat),
      (retry_with_backoff maxA base (oracleExcept oracle)).calls ≤ maxA)
    ∧ (∀ (oracle : Nat → SubprocessOutcome) (maxA base : Nat)
         (out err : String) (code : Int), 0 < maxA →
         oracle 0 = SubprocessOutcome.completed out err code →
         retry_with_backoff maxA base (oracleExcept oracle) =
           ⟨Except.ok ⟨out, err, code⟩, 1, []⟩)
    ∧ (∀ (oracle : Nat → SubprocessOutcome) (maxA base i d : Nat),
        ((retry_with_backoff maxA base (oracleExcept oracle)).delays).get? i
          = some d → d = base * 2 ^ i)
    ∧ defaultConfig.retry_attempts = 3 ∧ defaultConfig.retry_delay = 1
    ∧ execute_command defaultConfig true true flakyOracle [] "ping example.com"
        = ⟨some "PONG", ["ping example.com"], ["ping example.com"], 3, [1, 2]⟩
    ∧ execute_command defaultConfig true true
        (fun _ => SubprocessOutcome.completed "" "boom" 7) [] "ping x"
        = ⟨some "boom", ["ping x"], ["ping x"], 1, []⟩ := by
  refine ⟨?_, ?_, ?_, rfl, rfl, by decide, by decide⟩
  · intro oracle maxA base
    exact retryGo_calls_le _ _ _ _
  · intro oracle maxA base out err code hmax h
    exact retry_with_backoff_ok_first _ _ _ _ hmax (by simp [oracleExcept, h])
  · intro oracle maxA base i d hd
    have := retryGo_delays_eq (oracleExcept oracle) base maxA 0 i d hd
    simpa using this

/-- C8 (witness): a completed invocation with nonzero exit code 7 on attempt
0 is returned unretried: one call, no delays. -/
theorem retry_backoff_spec_witness :
    retry_with_backoff 3 1
        (oracleExcept (fun _ => SubprocessOutcome.completed "" "boom" 7)) =
      ⟨Except.ok ⟨"", "boom", 7⟩, 1, []⟩ :=
  retry_backoff_spec.2.1 (fun _ => SubprocessOutcome.completed "" "boom" 7)
    3 1 "" "boom" 7 (by decide) rfl

/-- Below capacity, an append keeps every entry. -/
theorem add_to_history_of_lt (h : List α) (maxH : Nat) (c : α)
    (hlt : h.length < maxH) : add_to_history h maxH c = h ++ [c] := by
  unfold add_to_history
  rw [if_neg]
  simp only [List.length_append, List.length_cons, List.length_nil]
  omega

/-- At capacity, an append evicts exactly the oldest entry. -/
theorem add_to_history_of_ge (h : List α) (maxH : Nat) (c : α)
    (hge : maxH ≤ h.length) : add_to_history h maxH c = (h ++ [c]).drop 1 := by
  unfold add_to_history
  rw [if_pos]
  simp only [List.length_append, List.length_cons, List.length_nil]
  omega

/-- Appending entries whose total overflows the capacity by exactly one
drops exactly the first entry. -/
theorem foldl_add_to_history (maxH : Nat) :
    ∀ (cmds : List α) (h : List α), cmds ≠ [] →
      h.length + cmds.length = maxH + 1 →
      cmds.foldl (fun acc c => add_to_history acc maxH c) h = (h ++ cmds).drop 1
  | [], _, hne, _ => absurd rfl hne
  | [c], h, _, hlen => by
    simp only [List.length_cons, List.length_nil] at hlen
    rw [List.foldl_cons, List.foldl_nil]
    rw [add_to_history_of_ge h maxH c (by omega)]
  | c :: c2 :: cs, h, _, hlen => by
    simp only [List.length_cons] at hlen
    rw [List.foldl_cons]
    rw [add_to_history_of_lt h maxH c (by omega)]
    rw [foldl_add_to_history maxH (c2 :: cs) (h ++ [c]) (by simp)
      (by simp only [List.length_append, List.length_cons, List.length_nil]; omega)]
    simp

/-- C9: the command history is a bounded FIFO of capacity `max_history`
(default 100): an append never exceeds the capacity; every `execute_command`
call appends the raw command string unconditionally and regardless of
outcome (the history state right after the append is
`add_to_history history max_history command` for every configuration,
privilege state, subprocess behaviour and command); and appending
capacity + 1 entries to an empty history leaves exactly the last capacity
entries: the oldest is evicted and the newest is last. -/
theorem command_history_fifo :
    max_history = 100
    ∧ (∀ (h : List String) (maxH : Nat) (c : String),
        h.length ≤ maxH → (add_to_history h maxH c).length ≤ maxH)
    ∧ (∀ (cfg : Config) (isAdmin adminGrant : Bool)
         (oracle : Nat → SubprocessOutcome) (hist : List String) (command : String),
        (execute_command cfg isAdmin adminGrant oracle hist command).historyAfterAppend
          = add_to_history hist max_history command)
    ∧ (∀ (cmds : List String) (maxH : Nat), 1 ≤ maxH →
        cmds.length = maxH + 1 →
        cmds.foldl (fun acc c => add_to_history acc maxH c) [] = cmds.drop 1
        ∧ (cmds.foldl (fun acc c => add_to_history acc maxH c) []).length = maxH
        ∧ (cmds.foldl (fun acc c => add_to_history acc maxH c) []).getLast?
            = cmds.getLast?) := by
  refine ⟨rfl, ?_, ?_, ?_⟩
  · intro h maxH c hle
    rcases Nat.lt_or_ge h.length maxH with hlt | hge
    · rw [add_to_history_of_lt h maxH c hlt]
      simp only [List.length_append, List.length_cons, List.length_nil]
      omega
    · rw [add_to_history_of_ge h maxH c hge]
      simp only [List.length_drop, List.length_append, List.length_cons,
        List.length_nil]
      omega
  · intro cfg isAdmin adminGrant oracle hist command
    rfl
  · intro cmds maxH hmax hlen
    have hne : cmds ≠ [] := by
      intro hc
      rw [hc] at hlen
      simp at hlen
    have hfold := foldl_add_to_history maxH cmds [] hne (by simpa using hlen)
    simp only [List.nil_append] at hfold
    refine ⟨hfold, ?_, ?_⟩
    · rw [hfold, List.length_drop, hlen]
      omega
    · rw [hfold, List.getLast?_drop, if_neg]
      omega

/-- C9 (witness): capacity 2 with three appends: the first entry is evicted
and the last two remain in order. -/
theorem command_history_fifo_witness :
    ["a", "b", "c"].foldl (fun acc c => add_to_history acc 2 c) [] =
        ["a", "b", "c"].drop 1
    ∧ (["a", "b", "c"].foldl (fun acc c => add_to_history acc 2 c) []).length = 2
    ∧ (["a", "b", "c"].foldl
        (fun acc c => add_to_history acc 2 c) []).getLast?
        = ["a", "b", "c"].getLast? :=
  command_history_fifo.2.2.2 ["a", "b", "c"] 2 (by decide) (by decide)

/-- The command keywords with a specific formatting rule in
`process_command_output` (every other keyword falls through to the default
branch). -/
def formattedCommands : List String :=
  ["ipconfig", "systeminfo", "netstat", "ping", "tracert", "dir",
   "whoami", "hostname", "ver", "date", "time"]

/-- C10: the output normalizer is total and never fails the pipeline: any
exception raised while parsing (modelled as the `error` outcome of the
branch body) degrades to returning the raw output unchanged; every command
keyword without a specific formatting rule yields the raw output prefixed
with `"Command output:"`; and on a concrete malformed `ping` output (an
empty first line, whose word extraction raises `IndexError`), the raw output
is returned unchanged. -/
theorem process_output_total :
    (∀ (cmd out e : String),
      processBody cmd out.data = Except.error e →
      process_command_output cmd out = out)
    ∧ (∀ cmd : String, cmd ∉ formattedCommands →
        ∀ out : String, process_command_output cmd out = "Command output:\n" ++ out)
    ∧ processBody "ping" "\nx".data = Except.error "list index out of range"
    ∧ process_command_output "ping" "\nx" = "\nx" := by
  refine ⟨?_, ?_, by rfl, by decide⟩
  · intro cmd out e h
    simp [process_command_output, h]
  · intro cmd hcmd out
    simp only [formattedCommands, List.mem_cons, List.not_mem_nil, or_false,
      not_or] at hcmd
    obtain ⟨h1, h2, h3, h4, h5, h6, h7, h8, h9, h10, h11⟩ := hcmd
    simp only [process_command_output, processBody, h1, h2, h3, h4, h5, h6,
      h7, h8, h9, h10, h11, if_false]
    rfl

/-- C10 (witness): the keyword `echo` has no specific formatting rule, so
its output gains the generic prefix. -/
theorem process_output_total_witness :
    process_command_output "echo" "hi" = "Command output:\nhi" :=
  process_output_total.2.1 "echo" (by decide) "hi"

end GrokAgent
